import Mathlib

/-!
Cluster discovery (CDS) generator and gRPC route (RDS) generator of the pilot
discovery server.

A shallow embedding of `pilot/pkg/xds/cds.go` (the push-necessity decision
`cdsNeedsPush` and the two response builders `Generate` and `GenerateDeltas`
of `CdsGenerator`) and of `pilot/pkg/networking/grpcgen/rds.go` (the cached
route builder `buildHTTPRoute` and the batch `BuildHTTPRoutes`), followed by
the properties established about them.

Conventions of the embedding:

* a Go slice is a `List`; a `nil` slice and an empty slice are both `[]`
  (they are indistinguishable through `len` and `range`);
* a Go map used as a set (`map[K]struct{}`) is the `List` of its keys; for
  `ConfigsUpdated` the list order is the order in which `range` visits the keys;
* a `for ... range` loop that appends to an accumulator is a `List.foldl`
  over the ranged slice, a loop that returns from its body is a recursion over it;
* a pointer that the function dereferences unconditionally (`proxy`, `w`) is a
  value, a pointer that it tests against `nil` (`req`) is an `Option`;
* the process-wide feature flag `features.FilterGatewayClusterConfig` and the
  collaborators `BuildClusters` / `BuildDeltaClusters` are explicit parameters;
* `log.Debugf` and `log.Warn` calls have no effect on the results and are left out;
* the package variables `cache` and `enableRdsCache` of `rds.go` are passed
  explicitly: the cache is threaded through the calls as a state, the switch is
  a parameter; the mutex `cacheMu` is held from the lookup to the return of a
  call, so one call is one atomic step of that state;
* the functions of other packages that `rds.go` calls (`model.ParseSubsetKey`,
  the two helpers of `v1alpha3`, `util.MessageToAny`) are parameters.
-/

namespace Istio

/-! ## Data model -/

/-- Modelled from the spec: the enumeration `kind.Kind` of package
`pkg/config/schema/kind`, whose declaration is not part of the sources at hand.
The ten kinds that `cds.go` names are constructors of their own; every other
member of the enumeration is `other n`. -/
inductive Kind where
  | Gateway
  | WorkloadEntry
  | WorkloadGroup
  | AuthorizationPolicy
  | RequestAuthentication
  | Secret
  | Telemetry
  | WasmPlugin
  | ProxyConfig
  | VirtualService
  | other (n : Nat)
  deriving DecidableEq, Repr

/-- Modelled from the spec: `model.ConfigKey`, one changed configuration object
identified by (Kind, Name, Namespace). -/
structure ConfigKey where
  Kind : Kind
  Name : String
  Namespace : String
  deriving DecidableEq, Repr

/-- Modelled from the spec: `model.NodeType`, the role of a proxy.  `Router` is
the edge-router role that `cdsNeedsPush` compares against; `SidecarProxy` and
every further role are the non-router ones. -/
inductive NodeType where
  | SidecarProxy
  | Router
  | otherRole (tag : String)
  deriving DecidableEq, Repr

/-- Modelled from the spec: the part of `model.Proxy` that `cds.go` reads,
its stable `ID` (logged only) and its role `Type` (the field is `Type_` here,
`Type` being reserved). -/
structure Proxy where
  ID : String
  Type_ : NodeType
  deriving DecidableEq, Repr

/-- Modelled from the spec: the part of `model.PushRequest` that `cds.go` reads.
`ConfigsUpdated` lists the keys of the Go map in the order `range` visits them. -/
structure PushRequest where
  Full : Bool
  ConfigsUpdated : List ConfigKey
  deriving DecidableEq, Repr

/-- Modelled from the spec: the part of `model.WatchedResource` that `cds.go`
reads, the slice of resource names the proxy subscribed to, as received. -/
structure WatchedResource where
  ResourceNames : List String
  deriving DecidableEq, Repr

/-- Modelled from the spec: a `discovery.Resource`, a named resource with its
serialized payload (type URL and bytes of the packed message). -/
structure Resource where
  Name : String
  TypeUrl : String
  Value : List Nat
  deriving DecidableEq, Repr

/-- Go `model.Resources`, a slice of resources. -/
abbrev Resources := List Resource

/-- Go `model.DeletedResources`, a slice of removed resource names. -/
abbrev DeletedResources := List String

/-- Modelled from the spec: `model.XdsLogDetails`, the log details a generator
hands back with its resources. -/
structure XdsLogDetails where
  Incremental : Bool
  AdditionalInfo : String
  deriving DecidableEq, Repr

/-- Modelled from the spec: `model.DefaultXdsLogDetails`, the zero value of
`XdsLogDetails` ("defaultLog"). -/
def DefaultXdsLogDetails : XdsLogDetails := ⟨false, ""⟩

/-- Go `error` as returned by the generators: `none` is the `nil` error. -/
abbrev Error := Option String

/-! ## `cdsNeedsPush` -/

/-- Keys of the Go map `skippedCdsConfigs`: all configs that do not impact CDS. -/
def skippedCdsConfigs : List Kind :=
  [Kind.Gateway, Kind.WorkloadEntry, Kind.WorkloadGroup, Kind.AuthorizationPolicy,
   Kind.RequestAuthentication, Kind.Secret, Kind.Telemetry, Kind.WasmPlugin,
   Kind.ProxyConfig]

/-- Keys of the Go map `pushCdsGatewayConfig`: configs that impact CDS for
gateways when the gateway-filter flag is set. -/
def pushCdsGatewayConfig : List Kind :=
  [Kind.VirtualService, Kind.Gateway]

/-- The `for config := range req.ConfigsUpdated` loop of `cdsNeedsPush`, over the
keys in visiting order; falling off the end of the loop is the final
`return false`. -/
def cdsNeedsPushLoop (filterGatewayClusterConfig : Bool) (proxy : Proxy) :
    List ConfigKey → Bool
  | [] => false
  | config :: rest =>
    if filterGatewayClusterConfig = true ∧ proxy.Type_ = NodeType.Router
        ∧ config.Kind ∈ pushCdsGatewayConfig then
      true
    else if config.Kind ∉ skippedCdsConfigs then
      true
    else
      cdsNeedsPushLoop filterGatewayClusterConfig proxy rest

/-- Go `cdsNeedsPush(req, proxy)`; the first argument is the value of
`features.FilterGatewayClusterConfig`. -/
def cdsNeedsPush (filterGatewayClusterConfig : Bool) (req : Option PushRequest)
    (proxy : Proxy) : Bool :=
  match req with
  | none => true
  | some r =>
    if r.Full = false then
      false
    else if r.ConfigsUpdated.length = 0 then
      true
    else
      cdsNeedsPushLoop filterGatewayClusterConfig proxy r.ConfigsUpdated

/-! ## `CdsGenerator.Generate` -/

/-- Inner loop of `Generate`: `for _, wrn := range w.ResourceNames`, appending
`c` to the accumulator at every `wrn` equal to `c.Name`. -/
def generateInner (names : List String) (c : Resource) (acc : Resources) : Resources :=
  names.foldl (fun acc wrn => if wrn = c.Name then acc ++ [c] else acc) acc

/-- Outer loop of `Generate`: `for _, c := range clusters`, starting from the
empty `clusters_filtered`. -/
def generateFilter (names : List String) (clusters : Resources) : Resources :=
  clusters.foldl
    (fun acc c => if names.length = 0 then acc ++ [c] else generateInner names c acc)
    []

/-- Go `CdsGenerator.Generate(proxy, w, req)`.  `buildClusters` is
`c.Server.ConfigGenerator.BuildClusters`. -/
def Generate (filterGatewayClusterConfig : Bool)
    (buildClusters : Proxy → Option PushRequest → Resources × XdsLogDetails)
    (proxy : Proxy) (w : WatchedResource) (req : Option PushRequest) :
    Resources × XdsLogDetails × Error :=
  if cdsNeedsPush filterGatewayClusterConfig req proxy = false then
    ([], DefaultXdsLogDetails, none)
  else
    let built := buildClusters proxy req
    (generateFilter w.ResourceNames built.1, built.2, none)

/-! ## `CdsGenerator.GenerateDeltas` -/

/-- Inner loop of the fallback branch of `GenerateDeltas`: appends `c` at every
`wrn` that equals `c.Name` or is the wildcard `"*"`. -/
def deltaInner (names : List String) (c : Resource) (acc : Resources) : Resources :=
  names.foldl (fun acc wrn => if wrn = c.Name ∨ wrn = "*" then acc ++ [c] else acc) acc

/-- Outer loop of the fallback branch of `GenerateDeltas`. -/
def deltaFilter (names : List String) (updatedClusters : Resources) : Resources :=
  updatedClusters.foldl
    (fun acc c => if names.length = 0 then acc ++ [c] else deltaInner names c acc)
    []

/-- Result of `BuildDeltaClusters`: updated clusters, removed names, log details
and whether a true delta was computed. -/
structure DeltaBuild where
  updated : Resources
  removed : DeletedResources
  logs : XdsLogDetails
  usedDelta : Bool
  deriving DecidableEq, Repr

/-- The five results of `GenerateDeltas`, in the order of the Go signature. -/
structure DeltaResult where
  updated : Resources
  removed : DeletedResources
  logs : XdsLogDetails
  usedDelta : Bool
  err : Error
  deriving DecidableEq, Repr

/-- Go `CdsGenerator.GenerateDeltas(proxy, req, w)`.  `buildDeltaClusters` is
`c.Server.ConfigGenerator.BuildDeltaClusters`. -/
def GenerateDeltas (filterGatewayClusterConfig : Bool)
    (buildDeltaClusters : Proxy → Option PushRequest → WatchedResource → DeltaBuild)
    (proxy : Proxy) (req : Option PushRequest) (w : WatchedResource) : DeltaResult :=
  if cdsNeedsPush filterGatewayClusterConfig req proxy = false then
    ⟨[], [], DefaultXdsLogDetails, false, none⟩
  else
    let built := buildDeltaClusters proxy req w
    if built.usedDelta = true then
      ⟨built.updated, built.removed, built.logs, true, none⟩
    else
      ⟨deltaFilter w.ResourceNames built.updated, built.removed, built.logs, false, none⟩

/-! ## Sample data -/

/-- A cluster resource named `n` with an empty payload. -/
def cluster (n : String) : Resource := ⟨n, "type.googleapis.com/envoy.config.cluster.v3.Cluster", []⟩

/-- A changed key of kind `k`. -/
def keyOf (k : Kind) : ConfigKey := ⟨k, "cfg", "default"⟩

/-- A sidecar proxy. -/
def sidecar : Proxy := ⟨"sidecar~10.0.0.1", NodeType.SidecarProxy⟩

/-- An edge-router proxy. -/
def router : Proxy := ⟨"router~10.0.0.2", NodeType.Router⟩

/-- A full push request with the given changed keys. -/
def fullReq (keys : List ConfigKey) : PushRequest := ⟨true, keys⟩

/-- A cluster builder that returns the given clusters for every proxy and request. -/
def constBuilder (cs : Resources) : Proxy → Option PushRequest → Resources × XdsLogDetails :=
  fun _ _ => (cs, ⟨false, "built"⟩)

/-- A delta builder that returns the given result for every proxy, request and watch. -/
def constDeltaBuilder (b : DeltaBuild) : Proxy → Option PushRequest → WatchedResource → DeltaBuild :=
  fun _ _ _ => b

/-- The clusters A, B, C of the filtering example. -/
def clustersABC : Resources := [cluster "A", cluster "B", cluster "C"]

/-- A delta builder result that fell back to a full computation: the given
updated clusters, one removed name, `usedDelta = false`. -/
def fallbackBuild (cs : Resources) : DeltaBuild := ⟨cs, ["gone"], ⟨false, "built"⟩, false⟩

/-! ## Route discovery: data model of `grpcgen/rds.go` -/

/-- Modelled from the spec: an envoy `route.VirtualHost`, one entry of the ordered
virtual-host sequence of a route configuration. -/
structure VirtualHost where
  Name : String
  Domains : List String
  deriving DecidableEq, Repr

/-- Modelled from the spec: an envoy `route.RouteConfiguration`, of which
`rds.go` sets `Name` and `VirtualHosts`. -/
structure RouteConfiguration where
  Name : String
  VirtualHosts : List VirtualHost
  deriving DecidableEq, Repr

/-- Modelled from the spec: `model.PushContext`, handed to the virtual-host
builder and never read by `rds.go`. -/
structure PushContext where
  PushVersion : String
  deriving DecidableEq, Repr

/-- The four results of `model.ParseSubsetKey`; `port` is a Go `int`. -/
structure SubsetKey where
  direction : String
  subsetName : String
  hostname : String
  port : Int
  deriving DecidableEq, Repr

/-- The two functions of package `v1alpha3` that `buildHTTPRoute` calls.  Of
`BuildSidecarOutboundVirtualHosts(node, push, routeName, port, nil, cache)` the
first result is kept (the other two are discarded by the caller), and its last
two arguments are the constants `nil` and `&model.DisabledCache{}`. -/
structure V1alpha3 where
  BuildSidecarOutboundVirtualHosts : Proxy → PushContext → String → Int → List VirtualHost
  GetVirtualHostsForSniffedServicePort : List VirtualHost → String → List VirtualHost

/-- The Go map `cache` of `rds.go`, from route name to route configuration, as
the list of its entries.  The only assignment to the map stores a freshly
allocated configuration, so the stored pointers are never `nil` and an entry
holds a value. -/
structure RouteCache where
  entries : List (String × RouteConfiguration)
  deriving DecidableEq, Repr

/-- The empty map that `cache` is initialised with. -/
def RouteCache.empty : RouteCache := ⟨[]⟩

/-- Go `cache[routeName]` in its two-result form: `none` when no entry exists. -/
def RouteCache.lookup (cache : RouteCache) (routeName : String) : Option RouteConfiguration :=
  (cache.entries.find? (fun e => decide (e.1 = routeName))).map (fun e => e.2)

/-- Go `cache[routeName] = rc`: the entry of `routeName` is replaced or added. -/
def RouteCache.store (cache : RouteCache) (routeName : String) (rc : RouteConfiguration) :
    RouteCache :=
  ⟨(routeName, rc) :: cache.entries.filter (fun e => decide (e.1 ≠ routeName))⟩

/-- State that a call of `buildHTTPRoute` reads and writes: the package-level
`cache`, and a record of the calls made to the virtual-host builder (route name
and port of each call, oldest first).  The record is not a variable of the
program; it makes "the builder is not invoked" a statement about the state. -/
structure RdsState where
  cache : RouteCache
  vhostBuilds : List (String × Int)
  deriving DecidableEq, Repr

/-- State of a fresh process: empty cache, no builder call made. -/
def RdsState.init : RdsState := ⟨RouteCache.empty, []⟩

/-! ## `buildHTTPRoute` and `BuildHTTPRoutes` -/

/-- Go `strings.Split` on the characters of a string, for a one-character
separator: the pieces between consecutive separators, empty pieces included. -/
def splitChars (sep : Char) : List Char → List (List Char)
  | [] => [[]]
  | c :: cs =>
    if c = sep then
      [] :: splitChars sep cs
    else
      match splitChars sep cs with
      | [] => [[c]]
      | piece :: pieces => (c :: piece) :: pieces

/-- Go `strings.Split(s, sep)` for a one-character separator. -/
def stringsSplit (s : String) (sep : Char) : List String :=
  (splitChars sep s.data).map String.mk

/-- The test `hostname == "" || port == 0` of `buildHTTPRoute` on the decoded name. -/
def failsToParse (key : SubsetKey) : Bool :=
  decide (key.hostname = "" ∨ key.port = 0)

/-- Lines 70-76 of `buildHTTPRoute`: the virtual hosts of the builder, passed
through the sniffed-port merge under the key `parts[3] + ":" + parts[1]` when
`routeName` splits on `"|"` into exactly four parts. -/
def routeVirtualHosts (lib : V1alpha3) (node : Proxy) (push : PushContext)
    (routeName : String) (port : Int) : List VirtualHost :=
  let virtualHosts := lib.BuildSidecarOutboundVirtualHosts node push routeName port
  match stringsSplit routeName '|' with
  | [_, part1, _, part3] =>
    lib.GetVirtualHostsForSniffedServicePort virtualHosts (part3 ++ ":" ++ part1)
  | _ => virtualHosts

/-- Go `buildHTTPRoute(node, push, routeName)`, with the package state passed in
and out.  `parseSubsetKey` is `model.ParseSubsetKey`, `lib` holds the two
`v1alpha3` functions, `enableRdsCache` is the package switch. -/
def buildHTTPRoute (parseSubsetKey : String → SubsetKey) (lib : V1alpha3)
    (enableRdsCache : Bool) (node : Proxy) (push : PushContext) (routeName : String)
    (st : RdsState) : Option RouteConfiguration × RdsState :=
  let key := parseSubsetKey routeName
  if failsToParse key = true then
    (none, st)
  else
    match (if enableRdsCache = true then st.cache.lookup routeName else none) with
    | some routeConfig => (some routeConfig, st)
    | none =>
      let virtualHosts := routeVirtualHosts lib node push routeName key.port
      let stored :=
        if enableRdsCache = true then st.cache.store routeName ⟨routeName, virtualHosts⟩
        else st.cache
      (some ⟨routeName, virtualHosts⟩, ⟨stored, st.vhostBuilds ++ [(routeName, key.port)]⟩)

/-- One iteration of the loop of `BuildHTTPRoutes`: build the route, append a
resource named `routeName` when a configuration came back. -/
def buildHTTPRoutesStep (parseSubsetKey : String → SubsetKey) (lib : V1alpha3)
    (messageToAny : RouteConfiguration → String × List Nat) (enableRdsCache : Bool)
    (node : Proxy) (push : PushContext) (acc : Resources × RdsState) (routeName : String) :
    Resources × RdsState :=
  match buildHTTPRoute parseSubsetKey lib enableRdsCache node push routeName acc.2 with
  | (some rc, st) => (acc.1 ++ [⟨routeName, (messageToAny rc).1, (messageToAny rc).2⟩], st)
  | (none, st) => (acc.1, st)

/-- Go `GrpcConfigGenerator.BuildHTTPRoutes(node, push, routeNames)`, with the
package state passed in and out.  `messageToAny` is `util.MessageToAny`, giving
the type URL and bytes of the packed configuration. -/
def BuildHTTPRoutes (parseSubsetKey : String → SubsetKey) (lib : V1alpha3)
    (messageToAny : RouteConfiguration → String × List Nat) (enableRdsCache : Bool)
    (node : Proxy) (push : PushContext) (routeNames : List String) (st : RdsState) :
    Resources × RdsState :=
  routeNames.foldl
    (buildHTTPRoutesStep parseSubsetKey lib messageToAny enableRdsCache node push) ([], st)

/-- One call of `buildHTTPRoute` as the environment may issue it: the value of
the switch at that time, the collaborators as they behave at that time, and the
arguments. -/
structure RouteCall where
  enableRdsCache : Bool
  lib : V1alpha3
  node : Proxy
  push : PushContext
  routeName : String

/-- State after a sequence of `buildHTTPRoute` calls, oldest first. -/
def runCalls (parseSubsetKey : String → SubsetKey) (calls : List RouteCall) (st : RdsState) :
    RdsState :=
  calls.foldl
    (fun s call =>
      (buildHTTPRoute parseSubsetKey call.lib call.enableRdsCache call.node call.push
        call.routeName s).2)
    st

/-! ## Sample data for routes -/

/-- The route name of the sniffed-port example. -/
def reviewsRoute : String := "outbound|9080|v1|reviews.default.svc.cluster.local"

/-- A decoder for the samples: it decodes `reviewsRoute` and the three-part name
`"outbound|80|httpbin.org"` to a host and a port, and every other name to the
zero values. -/
def sampleParse (s : String) : SubsetKey :=
  if s = reviewsRoute then ⟨"outbound", "v1", "reviews.default.svc.cluster.local", 9080⟩
  else if s = "outbound|80|httpbin.org" then ⟨"outbound", "", "httpbin.org", 80⟩
  else ⟨"", "", "", 0⟩

/-- Sample collaborators: the builder returns one virtual host named after the
route with the port as its domain, the merge keeps the hosts and appends one
named after the key. -/
def sampleLib : V1alpha3 :=
  ⟨fun _ _ routeName port => [⟨routeName, [toString port]⟩],
   fun vhosts key => vhosts ++ [⟨key, []⟩]⟩

/-- Sample collaborators that build nothing. -/
def emptyLib : V1alpha3 := ⟨fun _ _ _ _ => [], fun _ _ => []⟩

/-- A sample packing of a configuration: a fixed type URL, the number of virtual
hosts as the payload. -/
def sampleAny (rc : RouteConfiguration) : String × List Nat :=
  ("type.googleapis.com/envoy.config.route.v3.RouteConfiguration", [rc.VirtualHosts.length])

/-- A sample push context. -/
def samplePush : PushContext := ⟨"v1"⟩

/-- A state whose cache holds one configuration, stored under `reviewsRoute`. -/
def warmState : RdsState :=
  ⟨⟨[(reviewsRoute, ⟨reviewsRoute, [⟨"cached", []⟩]⟩)]⟩, [(reviewsRoute, 9080)]⟩

/-! ## What the two filtering loops compute -/

/-- An appending loop is the initial accumulator followed by the pieces, in order. -/
theorem foldl_append_pieces {α β : Type} (f : α → List β) (l : List α) (init : List β) :
    l.foldl (fun acc x => acc ++ f x) init = init ++ l.flatMap f := by
  induction l generalizing init with
  | nil => simp
  | cons x xs ih => simp [ih, List.flatMap_cons, List.append_assoc]

/-- The inner loop of `Generate` appends `c` once per occurrence of `c.Name`
among the watched names. -/
theorem generateInner_eq (names : List String) (c : Resource) (acc : Resources) :
    generateInner names c acc = acc ++ List.replicate (names.count c.Name) c := by
  unfold generateInner
  induction names generalizing acc with
  | nil => simp
  | cons n ns ih =>
    by_cases h : n = c.Name
    · subst h
      simp [ih, List.replicate_succ]
    · have h' : ¬ (n == c.Name) = true := by simpa using h
      simp [ih, h, List.count_cons, h']

/-- The outer loop of `Generate` for a non-empty list of watched names. -/
theorem generateFilter_eq (names : List String) (clusters : Resources) (hne : names ≠ []) :
    generateFilter names clusters
      = clusters.flatMap (fun c => List.replicate (names.count c.Name) c) := by
  have hlen : ¬ names.length = 0 := by
    intro h; exact hne (List.length_eq_zero.mp h)
  unfold generateFilter
  simp only [hlen, if_false, generateInner_eq]
  rw [foldl_append_pieces]
  simp

/-- The outer loop of `Generate` for an empty list of watched names keeps everything. -/
theorem generateFilter_nil (clusters : Resources) : generateFilter [] clusters = clusters := by
  unfold generateFilter
  simp only [List.length_nil, if_true]
  rw [foldl_append_pieces (fun c => [c])]
  induction clusters with
  | nil => rfl
  | cons c cs ih => simp [List.flatMap_cons]

/-- The inner loop of the delta fallback appends `c` once per watched name that
equals `c.Name` or is `"*"`. -/
theorem deltaInner_eq (names : List String) (c : Resource) (acc : Resources) :
    deltaInner names c acc
      = acc ++ List.replicate
          (names.countP (fun wrn => decide (wrn = c.Name ∨ wrn = "*"))) c := by
  unfold deltaInner
  induction names generalizing acc with
  | nil => simp
  | cons n ns ih =>
    by_cases h : n = c.Name ∨ n = "*"
    · simp only [List.foldl_cons, h, if_true, ih]
      rw [List.countP_cons_of_pos _ _ (by simpa using h)]
      simp [List.replicate_succ]
    · simp only [List.foldl_cons, h, if_false, ih]
      rw [List.countP_cons_of_neg _ _ (by simpa using h)]

/-- The outer loop of the delta fallback for a non-empty list of watched names. -/
theorem deltaFilter_eq (names : List String) (updated : Resources) (hne : names ≠ []) :
    deltaFilter names updated
      = updated.flatMap (fun c => List.replicate
          (names.countP (fun wrn => decide (wrn = c.Name ∨ wrn = "*"))) c) := by
  have hlen : ¬ names.length = 0 := by
    intro h; exact hne (List.length_eq_zero.mp h)
  unfold deltaFilter
  simp only [hlen, if_false, deltaInner_eq]
  rw [foldl_append_pieces]
  simp

/-- The outer loop of the delta fallback for an empty list of watched names
keeps everything. -/
theorem deltaFilter_nil (updated : Resources) : deltaFilter [] updated = updated := by
  unfold deltaFilter
  simp only [List.length_nil, if_true]
  rw [foldl_append_pieces (fun c => [c])]
  induction updated with
  | nil => rfl
  | cons c cs ih => simp [List.flatMap_cons]

/-- Membership in the output of the `Generate` loop. -/
theorem mem_generateFilter (names : List String) (clusters : Resources) (r : Resource) :
    r ∈ generateFilter names clusters ↔ r ∈ clusters ∧ (names = [] ∨ r.Name ∈ names) := by
  by_cases hne : names = []
  · subst hne; simp [generateFilter_nil]
  · rw [generateFilter_eq names clusters hne, List.mem_flatMap]
    constructor
    · rintro ⟨c, hc, hr⟩
      obtain ⟨hcount, rfl⟩ := List.mem_replicate.mp hr
      exact ⟨hc, Or.inr (List.count_pos_iff.mp (Nat.pos_of_ne_zero hcount))⟩
    · rintro ⟨hr, h⟩
      rcases h with h | h
      · exact absurd h hne
      · exact ⟨r, hr, List.mem_replicate.mpr
          ⟨Nat.pos_iff_ne_zero.mp (List.count_pos_iff.mpr h), rfl⟩⟩

/-- Membership in the output of the delta fallback loop. -/
theorem mem_deltaFilter (names : List String) (updated : Resources) (r : Resource) :
    r ∈ deltaFilter names updated
      ↔ r ∈ updated ∧ (names = [] ∨ r.Name ∈ names ∨ "*" ∈ names) := by
  by_cases hne : names = []
  · subst hne; simp [deltaFilter_nil]
  · rw [deltaFilter_eq names updated hne, List.mem_flatMap]
    constructor
    · rintro ⟨c, hc, hr⟩
      obtain ⟨hcount, rfl⟩ := List.mem_replicate.mp hr
      obtain ⟨n, hn, hp⟩ := List.countP_pos_iff.mp (Nat.pos_of_ne_zero hcount)
      refine ⟨hc, Or.inr ?_⟩
      rcases of_decide_eq_true hp with h | h
      · exact Or.inl (h ▸ hn)
      · exact Or.inr (h ▸ hn)
    · rintro ⟨hr, h⟩
      refine ⟨r, hr, List.mem_replicate.mpr ⟨Nat.pos_iff_ne_zero.mp ?_, rfl⟩⟩
      apply List.countP_pos_iff.mpr
      rcases h with h | h | h
      · exact absurd h hne
      · exact ⟨r.Name, h, decide_eq_true (Or.inl rfl)⟩
      · exact ⟨"*", h, decide_eq_true (Or.inr rfl)⟩

/-- For a non-empty watched list without repetition the `Generate` loop is the
filter that keeps the clusters with a watched name. -/
theorem generateFilter_of_nodup (names : List String) (clusters : Resources)
    (hne : names ≠ []) (hnodup : names.Nodup) :
    generateFilter names clusters
      = clusters.filter (fun c => decide (c.Name ∈ names)) := by
  rw [generateFilter_eq names clusters hne]
  induction clusters with
  | nil => rfl
  | cons c cs ih =>
    rw [List.flatMap_cons, ih]
    by_cases h : c.Name ∈ names
    · rw [List.count_eq_one_of_mem hnodup h, List.filter_cons_of_pos (by simpa using h)]
      rfl
    · rw [List.count_eq_zero.mpr h, List.filter_cons_of_neg (by simpa using h)]
      rfl

/-- The `range` loop of `cdsNeedsPush` returns true exactly when some visited
key triggers one of its two `return true` statements. -/
theorem cdsNeedsPushLoop_iff (flag : Bool) (proxy : Proxy) (keys : List ConfigKey) :
    cdsNeedsPushLoop flag proxy keys = true
      ↔ ∃ k ∈ keys, k.Kind ∉ skippedCdsConfigs
          ∨ (k.Kind ∈ pushCdsGatewayConfig ∧ proxy.Type_ = NodeType.Router ∧ flag = true) := by
  induction keys with
  | nil => simp [cdsNeedsPushLoop]
  | cons k ks ih =>
    unfold cdsNeedsPushLoop
    by_cases h1 : flag = true ∧ proxy.Type_ = NodeType.Router ∧ k.Kind ∈ pushCdsGatewayConfig
    · rw [if_pos h1]
      simp only [true_iff]
      exact ⟨k, List.mem_cons_self _ _, Or.inr ⟨h1.2.2, h1.2.1, h1.1⟩⟩
    · rw [if_neg h1]
      by_cases h2 : k.Kind ∉ skippedCdsConfigs
      · rw [if_pos h2]
        simp only [true_iff]
        exact ⟨k, List.mem_cons_self _ _, Or.inl h2⟩
      · rw [if_neg h2, ih]
        constructor
        · rintro ⟨k', hk', h⟩
          exact ⟨k', List.mem_cons_of_mem _ hk', h⟩
        · rintro ⟨k', hk', h⟩
          rcases List.mem_cons.mp hk' with rfl | hk'
          · rcases h with h | h
            · exact absurd h h2
            · exact absurd ⟨h.2.2, h.2.1, h.1⟩ h1
          · exact ⟨k', hk', h⟩

/-- The `range` loop of `cdsNeedsPush` gives the same answer for every visiting
order of the same keys. -/
theorem cdsNeedsPushLoop_perm (flag : Bool) (proxy : Proxy) (keys keys' : List ConfigKey)
    (hp : keys'.Perm keys) :
    cdsNeedsPushLoop flag proxy keys' = cdsNeedsPushLoop flag proxy keys := by
  rw [Bool.eq_iff_iff, cdsNeedsPushLoop_iff, cdsNeedsPushLoop_iff]
  constructor
  · rintro ⟨k, hk, h⟩
    exact ⟨k, hp.mem_iff.mp hk, h⟩
  · rintro ⟨k, hk, h⟩
    exact ⟨k, hp.mem_iff.mpr hk, h⟩

/-! ## Push necessity -/

/-- C1: a request with `Full = false` never needs a CDS push, whatever keys it
carries, whatever the role of the proxy and whatever the gateway-filter flag. -/
theorem cdsNeedsPush_not_full (flag : Bool) (proxy : Proxy) (keys : List ConfigKey) :
    cdsNeedsPush flag (some ⟨false, keys⟩) proxy = false := by
  simp [cdsNeedsPush]

/-- C2: for a full request with a non-empty change set, a push is needed exactly
when some changed key has a kind outside the irrelevant set, or has a gateway
kind while the proxy is a router and the gateway-filter flag is set; the answer
is the same for every visiting order of the keys; a lone Secret key for a
non-router proxy with the flag off gives false, a lone VirtualService key for a
router with the flag on gives true. -/
theorem cdsNeedsPush_full_nonempty (flag : Bool) (proxy : Proxy) (req : PushRequest)
    (hfull : req.Full = true) (hne : req.ConfigsUpdated ≠ []) :
    (cdsNeedsPush flag (some req) proxy = true
      ↔ ∃ k ∈ req.ConfigsUpdated,
          k.Kind ∉ [Kind.Gateway, Kind.WorkloadEntry, Kind.WorkloadGroup,
                    Kind.AuthorizationPolicy, Kind.RequestAuthentication, Kind.Secret,
                    Kind.Telemetry, Kind.WasmPlugin, Kind.ProxyConfig]
          ∨ (k.Kind ∈ [Kind.VirtualService, Kind.Gateway]
              ∧ proxy.Type_ = NodeType.Router ∧ flag = true))
    ∧ (∀ keys' : List ConfigKey, keys'.Perm req.ConfigsUpdated →
        cdsNeedsPush flag (some ⟨true, keys'⟩) proxy = cdsNeedsPush flag (some req) proxy)
    ∧ (∀ (p : Proxy) (k : ConfigKey), p.Type_ ≠ NodeType.Router → k.Kind = Kind.Secret →
        cdsNeedsPush false (some ⟨true, [k]⟩) p = false)
    ∧ (∀ (p : Proxy) (k : ConfigKey), p.Type_ = NodeType.Router → k.Kind = Kind.VirtualService →
        cdsNeedsPush true (some ⟨true, [k]⟩) p = true) := by
  have hlen : ¬ req.ConfigsUpdated.length = 0 := fun h => hne (List.length_eq_zero.mp h)
  have hreq : cdsNeedsPush flag (some req) proxy
      = cdsNeedsPushLoop flag proxy req.ConfigsUpdated := by
    simp [cdsNeedsPush, hfull, hlen]
  refine ⟨?_, ?_, ?_, ?_⟩
  · rw [hreq, cdsNeedsPushLoop_iff]
    rfl
  · intro keys' hp
    have hlen' : ¬ keys'.length = 0 := by
      rw [hp.length_eq]; exact hlen
    rw [hreq, ← cdsNeedsPushLoop_perm flag proxy req.ConfigsUpdated keys' hp]
    simp [cdsNeedsPush, hlen']
  · intro p k hp hk
    simp [cdsNeedsPush, cdsNeedsPushLoop, hk, skippedCdsConfigs]
  · intro p k hp hk
    simp [cdsNeedsPush, cdsNeedsPushLoop, hk, hp, pushCdsGatewayConfig]

/-- Witness of C2 at a router with the flag on and the change set
{Secret, VirtualService}: the request is full and non-empty and needs a push. -/
theorem cdsNeedsPush_full_nonempty_witness :
    (fullReq [keyOf Kind.Secret, keyOf Kind.VirtualService]).Full = true
    ∧ (fullReq [keyOf Kind.Secret, keyOf Kind.VirtualService]).ConfigsUpdated ≠ []
    ∧ cdsNeedsPush true (some (fullReq [keyOf Kind.Secret, keyOf Kind.VirtualService])) router
        = true :=
  ⟨rfl, by decide,
    (cdsNeedsPush_full_nonempty true router
      (fullReq [keyOf Kind.Secret, keyOf Kind.VirtualService]) rfl (by decide)).1.mpr
      ⟨keyOf Kind.VirtualService, by decide, Or.inl (by decide)⟩⟩

/-- C3: with an absent request a push is always needed, for every proxy and
either value of the gateway-filter flag. -/
theorem cdsNeedsPush_nil (flag : Bool) (proxy : Proxy) :
    cdsNeedsPush flag none proxy = true := by
  rfl

/-- C4: a full request with an empty change set always needs a push, for every
proxy and either value of the gateway-filter flag. -/
theorem cdsNeedsPush_full_empty (flag : Bool) (proxy : Proxy) :
    cdsNeedsPush flag (some ⟨true, []⟩) proxy = true := by
  simp [cdsNeedsPush]

/-! ## Response shaping -/

/-- C5: every resource `Generate` returns was produced by the cluster builder
and, when the watched list is non-empty, carries a watched name; with
`usedDelta = false` the same holds for the updated resources of
`GenerateDeltas`, where a watched list containing `"*"` admits any name. -/
theorem Generate_only_requested (flag : Bool)
    (build : Proxy → Option PushRequest → Resources × XdsLogDetails)
    (buildDelta : Proxy → Option PushRequest → WatchedResource → DeltaBuild)
    (proxy : Proxy) (w : WatchedResource) (req : Option PushRequest) (r : Resource) :
    (r ∈ (Generate flag build proxy w req).1 →
        r ∈ (build proxy req).1 ∧ (w.ResourceNames ≠ [] → r.Name ∈ w.ResourceNames))
    ∧ ((buildDelta proxy req w).usedDelta = false →
        r ∈ (GenerateDeltas flag buildDelta proxy req w).updated →
        r ∈ (buildDelta proxy req w).updated
          ∧ (w.ResourceNames ≠ [] → r.Name ∈ w.ResourceNames ∨ "*" ∈ w.ResourceNames)) := by
  constructor
  · intro hr
    unfold Generate at hr
    by_cases hp : cdsNeedsPush flag req proxy = false
    · simp [hp] at hr
    · rw [if_neg hp] at hr
      obtain ⟨hmem, hname⟩ := (mem_generateFilter _ _ _).mp hr
      exact ⟨hmem, fun hne => hname.resolve_left hne⟩
  · intro hd hr
    unfold GenerateDeltas at hr
    by_cases hp : cdsNeedsPush flag req proxy = false
    · simp [hp] at hr
    · rw [if_neg hp] at hr
      simp only [hd] at hr
      obtain ⟨hmem, hname⟩ := (mem_deltaFilter _ _ _).mp hr
      exact ⟨hmem, fun hne => hname.resolve_left hne⟩

/-- Witness of C5: with clusters A, B, C and watched names A, C the returned
cluster A is a built cluster with a watched name, in both generators. -/
theorem Generate_only_requested_witness :
    (cluster "A" ∈ (Generate true (constBuilder clustersABC) sidecar ⟨["A", "C"]⟩ none).1
      ∧ (fallbackBuild clustersABC).usedDelta = false
      ∧ cluster "A" ∈ (GenerateDeltas true (constDeltaBuilder (fallbackBuild clustersABC))
          sidecar none ⟨["A", "C"]⟩).updated)
    ∧ (cluster "A" ∈ clustersABC ∧ "A" ∈ ["A", "C"]) :=
  ⟨⟨by decide, rfl, by decide⟩,
    ((Generate_only_requested true (constBuilder clustersABC)
        (constDeltaBuilder (fallbackBuild clustersABC)) sidecar ⟨["A", "C"]⟩ none
        (cluster "A")).1 (by decide)).1,
    ((Generate_only_requested true (constBuilder clustersABC)
        (constDeltaBuilder (fallbackBuild clustersABC)) sidecar ⟨["A", "C"]⟩ none
        (cluster "A")).1 (by decide)).2 (by decide)⟩

/-- C6: evaluation of `Generate` where the watched list names cluster A twice.
A push is needed, the builder produced the single cluster A, and the response
holds A twice, whereas keeping each watched cluster once gives A once.  On the
example of the claim (clusters A, B, C, watched names A, C) the response is
A, C. -/
theorem Generate_repeats_cluster_of_repeated_name :
    cdsNeedsPush true none sidecar = true
    ∧ (Generate true (constBuilder [cluster "A"]) sidecar ⟨["A", "A"]⟩ none).1
        = [cluster "A", cluster "A"]
    ∧ [cluster "A"].filter (fun c => decide (c.Name ∈ ["A", "A"])) = [cluster "A"]
    ∧ (Generate true (constBuilder clustersABC) sidecar ⟨["A", "C"]⟩ none).1
        = [cluster "A", cluster "C"] := by
  decide

/-- C7: when a push is needed and the watched list is empty, `Generate` returns
the clusters of the builder unchanged and in order, the log details of the
builder, and a nil error. -/
theorem Generate_watch_all (flag : Bool)
    (build : Proxy → Option PushRequest → Resources × XdsLogDetails)
    (proxy : Proxy) (req : Option PushRequest)
    (hpush : cdsNeedsPush flag req proxy = true) :
    Generate flag build proxy ⟨[]⟩ req = ((build proxy req).1, (build proxy req).2, none) := by
  simp [Generate, hpush, generateFilter_nil]

/-- Witness of C7: a first synchronization (absent request) of a sidecar that
watches everything returns the clusters A, B, C. -/
theorem Generate_watch_all_witness :
    cdsNeedsPush false none sidecar = true
    ∧ Generate false (constBuilder clustersABC) sidecar ⟨[]⟩ none
        = (clustersABC, ⟨false, "built"⟩, none) :=
  ⟨rfl, Generate_watch_all false (constBuilder clustersABC) sidecar none rfl⟩

/-- C8: when no push is needed, `Generate` returns no resources, the default log
details and a nil error, and `GenerateDeltas` returns no updated resources, no
removed names, the default log details, `usedDelta = false` and a nil error;
neither result depends on the builder or on the watched names. -/
theorem no_push_is_noop (flag : Bool) (proxy : Proxy) (req : Option PushRequest)
    (hskip : cdsNeedsPush flag req proxy = false) :
    (∀ (build : Proxy → Option PushRequest → Resources × XdsLogDetails) (w : WatchedResource),
        Generate flag build proxy w req = ([], DefaultXdsLogDetails, none))
    ∧ (∀ (buildDelta : Proxy → Option PushRequest → WatchedResource → DeltaBuild)
        (w : WatchedResource),
        GenerateDeltas flag buildDelta proxy req w
          = ⟨[], [], DefaultXdsLogDetails, false, none⟩)
    ∧ (∀ (build build' : Proxy → Option PushRequest → Resources × XdsLogDetails)
        (w w' : WatchedResource),
        Generate flag build proxy w req = Generate flag build' proxy w' req)
    ∧ (∀ (buildDelta buildDelta' : Proxy → Option PushRequest → WatchedResource → DeltaBuild)
        (w w' : WatchedResource),
        GenerateDeltas flag buildDelta proxy req w
          = GenerateDeltas flag buildDelta' proxy req w') := by
  refine ⟨?_, ?_, ?_, ?_⟩
  · intro build w; simp [Generate, hskip]
  · intro buildDelta w; simp [GenerateDeltas, hskip]
  · intro build build' w w'; simp [Generate, hskip]
  · intro buildDelta buildDelta' w w'; simp [GenerateDeltas, hskip]

/-- Witness of C8: a full push that changes only a Secret is a no-op for a
sidecar that watches A and C, whatever the builder holds. -/
theorem no_push_is_noop_witness :
    cdsNeedsPush false (some (fullReq [keyOf Kind.Secret])) sidecar = false
    ∧ Generate false (constBuilder clustersABC) sidecar ⟨["A", "C"]⟩
        (some (fullReq [keyOf Kind.Secret])) = ([], DefaultXdsLogDetails, none)
    ∧ GenerateDeltas false (constDeltaBuilder (fallbackBuild clustersABC)) sidecar
        (some (fullReq [keyOf Kind.Secret])) ⟨["A", "C"]⟩
        = ⟨[], [], DefaultXdsLogDetails, false, none⟩ :=
  ⟨by decide,
    (no_push_is_noop false sidecar (some (fullReq [keyOf Kind.Secret])) (by decide)).1 _ _,
    (no_push_is_noop false sidecar (some (fullReq [keyOf Kind.Secret])) (by decide)).2.1 _ _⟩

/-- C9: evaluation of the delta fallback where the watched list holds both the
name A and the wildcard.  A push is needed, the builder reports
`usedDelta = false` with the single updated cluster A, and the response holds
A twice, whereas keeping each resource that satisfies the rule once gives A
once. -/
theorem GenerateDeltas_repeats_cluster_of_name_and_wildcard :
    cdsNeedsPush true none sidecar = true
    ∧ (fallbackBuild [cluster "A"]).usedDelta = false
    ∧ (GenerateDeltas true (constDeltaBuilder (fallbackBuild [cluster "A"])) sidecar none
          ⟨["A", "*"]⟩).updated = [cluster "A", cluster "A"]
    ∧ [cluster "A"].filter
          (fun c => decide (["A", "*"] = [] ∨ c.Name ∈ ["A", "*"] ∨ "*" ∈ ["A", "*"]))
        = [cluster "A"] := by
  decide

/-- C10: when a push is needed, the builder reports `usedDelta = false` and the
watched list is exactly `"*"`, the updated list `GenerateDeltas` returns equals
the updated list of the builder. -/
theorem GenerateDeltas_wildcard_only (flag : Bool)
    (buildDelta : Proxy → Option PushRequest → WatchedResource → DeltaBuild)
    (proxy : Proxy) (req : Option PushRequest)
    (hpush : cdsNeedsPush flag req proxy = true)
    (hfallback : (buildDelta proxy req ⟨["*"]⟩).usedDelta = false) :
    (GenerateDeltas flag buildDelta proxy req ⟨["*"]⟩).updated
      = (buildDelta proxy req ⟨["*"]⟩).updated := by
  have hkeep : ∀ cs : Resources, deltaFilter ["*"] cs = cs := by
    intro cs
    rw [deltaFilter_eq ["*"] cs (by simp)]
    induction cs with
    | nil => rfl
    | cons c cs ih => simp [List.flatMap_cons, ih]
  simp [GenerateDeltas, hpush, hfallback, hkeep]

/-- Witness of C10: a first synchronization of a sidecar watching `"*"` gets
the clusters A, B, C of the fallback builder. -/
theorem GenerateDeltas_wildcard_only_witness :
    cdsNeedsPush false none sidecar = true
    ∧ (fallbackBuild clustersABC).usedDelta = false
    ∧ (GenerateDeltas false (constDeltaBuilder (fallbackBuild clustersABC)) sidecar none
          ⟨["*"]⟩).updated = clustersABC :=
  ⟨rfl, rfl,
    GenerateDeltas_wildcard_only false (constDeltaBuilder (fallbackBuild clustersABC))
      sidecar none rfl rfl⟩

/-- The delta fallback with the single watched name `"*"` keeps every resource. -/
theorem deltaFilter_wildcard (updated : Resources) : deltaFilter ["*"] updated = updated := by
  rw [deltaFilter_eq ["*"] updated (by simp)]
  induction updated with
  | nil => rfl
  | cons c cs ih => simp [List.flatMap_cons, ih]

/-- C11: when a push is needed and the builder reports `usedDelta = true`,
`GenerateDeltas` returns the updated resources and removed names of the builder
as they are, for every watched list, with the log details of the builder,
`usedDelta = true` and a nil error. -/
theorem GenerateDeltas_used_delta (flag : Bool)
    (buildDelta : Proxy → Option PushRequest → WatchedResource → DeltaBuild)
    (proxy : Proxy) (req : Option PushRequest) (w : WatchedResource)
    (hpush : cdsNeedsPush flag req proxy = true)
    (hdelta : (buildDelta proxy req w).usedDelta = true) :
    GenerateDeltas flag buildDelta proxy req w
      = ⟨(buildDelta proxy req w).updated, (buildDelta proxy req w).removed,
         (buildDelta proxy req w).logs, true, none⟩ := by
  simp [GenerateDeltas, hpush, hdelta]

/-- Witness of C11: a true delta with updated clusters A, B, C and one removed
name reaches a sidecar that watches only A unfiltered. -/
theorem GenerateDeltas_used_delta_witness :
    cdsNeedsPush false none sidecar = true
    ∧ GenerateDeltas false
        (constDeltaBuilder ⟨clustersABC, ["gone"], ⟨true, "delta"⟩, true⟩) sidecar none ⟨["A"]⟩
      = ⟨clustersABC, ["gone"], ⟨true, "delta"⟩, true, none⟩ :=
  ⟨rfl, GenerateDeltas_used_delta false
    (constDeltaBuilder ⟨clustersABC, ["gone"], ⟨true, "delta"⟩, true⟩) sidecar none ⟨["A"]⟩
    rfl rfl⟩

/-- C12: when a push is needed and the builder reports `usedDelta = false`,
`GenerateDeltas` passes the removed names and log details of the builder
through unchanged for every watched list, reports `usedDelta = false` and a
nil error; `Generate` and `GenerateDeltas` return a nil error on every input. -/
theorem GenerateDeltas_fallback_frame (flag : Bool)
    (buildDelta : Proxy → Option PushRequest → WatchedResource → DeltaBuild)
    (proxy : Proxy) (req : Option PushRequest) (w : WatchedResource)
    (hpush : cdsNeedsPush flag req proxy = true)
    (hfallback : (buildDelta proxy req w).usedDelta = false) :
    ((GenerateDeltas flag buildDelta proxy req w).removed = (buildDelta proxy req w).removed
      ∧ (GenerateDeltas flag buildDelta proxy req w).logs = (buildDelta proxy req w).logs
      ∧ (GenerateDeltas flag buildDelta proxy req w).usedDelta = false
      ∧ (GenerateDeltas flag buildDelta proxy req w).err = none)
    ∧ (∀ (flag' : Bool) (build : Proxy → Option PushRequest → Resources × XdsLogDetails)
        (p : Proxy) (w' : WatchedResource) (req' : Option PushRequest),
        (Generate flag' build p w' req').2.2 = none)
    ∧ (∀ (flag' : Bool)
        (buildDelta' : Proxy → Option PushRequest → WatchedResource → DeltaBuild)
        (p : Proxy) (req' : Option PushRequest) (w' : WatchedResource),
        (GenerateDeltas flag' buildDelta' p req' w').err = none) := by
  refine ⟨?_, ?_, ?_⟩
  · simp [GenerateDeltas, hpush, hfallback]
  · intro flag' build p w' req'
    unfold Generate
    split <;> rfl
  · intro flag' buildDelta' p req' w'
    unfold GenerateDeltas
    split
    · rfl
    · dsimp only
      split <;> rfl

/-- Witness of C12: the fallback for a sidecar watching only A filters the
updated clusters and still hands back the removed name and the log details. -/
theorem GenerateDeltas_fallback_frame_witness :
    cdsNeedsPush false none sidecar = true
    ∧ (fallbackBuild clustersABC).usedDelta = false
    ∧ (GenerateDeltas false (constDeltaBuilder (fallbackBuild clustersABC)) sidecar none
        ⟨["A"]⟩).removed = ["gone"]
    ∧ (GenerateDeltas false (constDeltaBuilder (fallbackBuild clustersABC)) sidecar none
        ⟨["A"]⟩).logs = ⟨false, "built"⟩ :=
  ⟨rfl, rfl,
    (GenerateDeltas_fallback_frame false (constDeltaBuilder (fallbackBuild clustersABC))
      sidecar none ⟨["A"]⟩ rfl rfl).1.1,
    (GenerateDeltas_fallback_frame false (constDeltaBuilder (fallbackBuild clustersABC))
      sidecar none ⟨["A"]⟩ rfl rfl).1.2.1⟩

/-- C17: when a push is needed and the watched list is exactly `"*"`, `Generate`
returns only the built clusters literally named `"*"` (none at all when no
cluster has that name), while `GenerateDeltas` with `usedDelta = false` on the
same clusters returns all of them. -/
theorem wildcard_only_in_delta_fallback (flag : Bool)
    (build : Proxy → Option PushRequest → Resources × XdsLogDetails)
    (buildDelta : Proxy → Option PushRequest → WatchedResource → DeltaBuild)
    (proxy : Proxy) (req : Option PushRequest)
    (hpush : cdsNeedsPush flag req proxy = true)
    (hfallback : (buildDelta proxy req ⟨["*"]⟩).usedDelta = false)
    (hsame : (buildDelta proxy req ⟨["*"]⟩).updated = (build proxy req).1) :
    (Generate flag build proxy ⟨["*"]⟩ req).1
        = (build proxy req).1.filter (fun c => decide (c.Name = "*"))
    ∧ ((∀ c ∈ (build proxy req).1, c.Name ≠ "*") →
        (Generate flag build proxy ⟨["*"]⟩ req).1 = [])
    ∧ (GenerateDeltas flag buildDelta proxy req ⟨["*"]⟩).updated = (build proxy req).1 := by
  have hgen : (Generate flag build proxy ⟨["*"]⟩ req).1
      = (build proxy req).1.filter (fun c => decide (c.Name = "*")) := by
    simp only [Generate, hpush, Bool.true_eq_false, if_false]
    rw [generateFilter_of_nodup ["*"] _ (by simp) (by simp)]
    simp
  refine ⟨hgen, ?_, ?_⟩
  · intro hnone
    rw [hgen, List.filter_eq_nil_iff]
    intro c hc
    simpa using hnone c hc
  · simp [GenerateDeltas, hpush, hfallback, deltaFilter_wildcard, hsame]

/-- Witness of C17: for clusters A, B, C and the watched list `"*"`, `Generate`
returns nothing and the delta fallback returns A, B, C. -/
theorem wildcard_only_in_delta_fallback_witness :
    (cdsNeedsPush false none sidecar = true
      ∧ (fallbackBuild clustersABC).usedDelta = false)
    ∧ (Generate false (constBuilder clustersABC) sidecar ⟨["*"]⟩ none).1 = []
    ∧ (GenerateDeltas false (constDeltaBuilder (fallbackBuild clustersABC)) sidecar none
        ⟨["*"]⟩).updated = clustersABC :=
  ⟨⟨rfl, rfl⟩,
    (wildcard_only_in_delta_fallback false (constBuilder clustersABC)
      (constDeltaBuilder (fallbackBuild clustersABC)) sidecar none rfl rfl rfl).2.1
      (by decide),
    (wildcard_only_in_delta_fallback false (constBuilder clustersABC)
      (constDeltaBuilder (fallbackBuild clustersABC)) sidecar none rfl rfl rfl).2.2⟩

/-- C20: for a full request, enlarging a non-empty change set never turns a
needed push into a skipped one; non-emptiness is necessary, since the empty
change set needs a push while a lone Secret key for a non-router proxy does
not. -/
theorem cdsNeedsPush_monotone (flag : Bool) (proxy : Proxy) (keys keys' : List ConfigKey)
    (hne : keys ≠ []) (hsub : keys ⊆ keys')
    (hpush : cdsNeedsPush flag (some ⟨true, keys⟩) proxy = true) :
    cdsNeedsPush flag (some ⟨true, keys'⟩) proxy = true
    ∧ (∀ (flag' : Bool) (p : Proxy) (k : ConfigKey),
        p.Type_ ≠ NodeType.Router → k.Kind = Kind.Secret →
        ([] : List ConfigKey) ⊆ [k]
        ∧ cdsNeedsPush flag' (some ⟨true, []⟩) p = true
        ∧ cdsNeedsPush flag' (some ⟨true, [k]⟩) p = false) := by
  constructor
  · have hlen : ¬ keys.length = 0 := fun h => hne (List.length_eq_zero.mp h)
    have hloop : cdsNeedsPushLoop flag proxy keys = true := by
      simpa [cdsNeedsPush, hlen] using hpush
    obtain ⟨k, hk, htrig⟩ := (cdsNeedsPushLoop_iff flag proxy keys).mp hloop
    have hloop' : cdsNeedsPushLoop flag proxy keys' = true :=
      (cdsNeedsPushLoop_iff flag proxy keys').mpr ⟨k, hsub hk, htrig⟩
    by_cases hlen' : keys'.length = 0
    · simp [cdsNeedsPush, hlen']
    · simp [cdsNeedsPush, hlen', hloop']
  · intro flag' p k hp hk
    refine ⟨List.nil_subset _, by simp [cdsNeedsPush], ?_⟩
    simp [cdsNeedsPush, cdsNeedsPushLoop, hk, hp, skippedCdsConfigs, pushCdsGatewayConfig]

/-- Witness of C20: for a router with the flag on, the change set
{VirtualService} needs a push and so does {Secret, VirtualService}. -/
theorem cdsNeedsPush_monotone_witness :
    ([keyOf Kind.VirtualService] ≠ []
      ∧ [keyOf Kind.VirtualService] ⊆ [keyOf Kind.Secret, keyOf Kind.VirtualService]
      ∧ cdsNeedsPush true (some ⟨true, [keyOf Kind.VirtualService]⟩) router = true)
    ∧ cdsNeedsPush true
        (some ⟨true, [keyOf Kind.Secret, keyOf Kind.VirtualService]⟩) router = true :=
  ⟨⟨by decide, by decide, by decide⟩,
    (cdsNeedsPush_monotone true router [keyOf Kind.VirtualService]
      [keyOf Kind.Secret, keyOf Kind.VirtualService] (by decide) (by decide) (by decide)).1⟩

/-! ## The route cache as a map -/

/-- Looking up in the empty cache finds nothing. -/
theorem RouteCache.lookup_empty (k : String) : RouteCache.empty.lookup k = none := rfl

/-- Dropping the entries of one name does not change what is found under
another name. -/
theorem find_filter_other (es : List (String × RouteConfiguration)) (k k' : String)
    (h : k' ≠ k) :
    (es.filter (fun e => decide (e.1 ≠ k))).find? (fun e => decide (e.1 = k'))
      = es.find? (fun e => decide (e.1 = k')) := by
  induction es with
  | nil => rfl
  | cons e es ih =>
    by_cases he : e.1 = k
    · have he' : ¬ e.1 = k' := fun e' => h (e'.symm.trans he)
      rw [List.filter_cons_of_neg (by simp [he]), ih,
        List.find?_cons_of_neg _ (by simp [he'])]
    · rw [List.filter_cons_of_pos (by simp [he])]
      by_cases he' : e.1 = k'
      · rw [List.find?_cons_of_pos _ (by simp [he']),
          List.find?_cons_of_pos _ (by simp [he'])]
      · rw [List.find?_cons_of_neg _ (by simp [he']),
          List.find?_cons_of_neg _ (by simp [he']), ih]

/-- Looking up after a store: the stored value under the stored name, the old
content under every other name. -/
theorem RouteCache.lookup_store (cache : RouteCache) (k k' : String) (rc : RouteConfiguration) :
    (cache.store k rc).lookup k' = if k' = k then some rc else cache.lookup k' := by
  unfold RouteCache.store RouteCache.lookup
  by_cases h : k' = k
  · subst h
    simp [List.find?_cons]
  · have hk : ¬ k = k' := fun e => h e.symm
    rw [if_neg h]
    dsimp only
    rw [List.find?_cons_of_neg _ (by simp [hk]), find_filter_other _ k k' h]

/-- A value found by a lookup is the value of an entry of the cache. -/
theorem RouteCache.mem_of_lookup (cache : RouteCache) (k : String) (rc : RouteConfiguration)
    (h : cache.lookup k = some rc) : (k, rc) ∈ cache.entries := by
  unfold RouteCache.lookup at h
  obtain ⟨e, he, hrc⟩ := Option.map_eq_some'.mp h
  have hmem := List.mem_of_find?_eq_some he
  have hkey : e.1 = k := by simpa using List.find?_some he
  have : e = (k, rc) := Prod.ext hkey hrc
  exact this ▸ hmem

/-! ## The three outcomes of `buildHTTPRoute` -/

/-- A name that fails to parse yields nothing and leaves the state alone. -/
theorem buildHTTPRoute_of_fails (parse : String → SubsetKey) (lib : V1alpha3) (enable : Bool)
    (node : Proxy) (push : PushContext) (name : String) (st : RdsState)
    (h : failsToParse (parse name) = true) :
    buildHTTPRoute parse lib enable node push name st = (none, st) := by
  simp [buildHTTPRoute, h]

/-- A cache hit returns the cached configuration and leaves the state alone. -/
theorem buildHTTPRoute_of_hit (parse : String → SubsetKey) (lib : V1alpha3)
    (node : Proxy) (push : PushContext) (name : String) (st : RdsState)
    (rc : RouteConfiguration)
    (hvalid : failsToParse (parse name) = false) (hhit : st.cache.lookup name = some rc) :
    buildHTTPRoute parse lib true node push name st = (some rc, st) := by
  simp [buildHTTPRoute, hvalid, hhit]

/-- A miss with caching enabled builds the configuration, stores it and records
the builder call. -/
theorem buildHTTPRoute_of_miss (parse : String → SubsetKey) (lib : V1alpha3)
    (node : Proxy) (push : PushContext) (name : String) (st : RdsState)
    (hvalid : failsToParse (parse name) = false) (hmiss : st.cache.lookup name = none) :
    buildHTTPRoute parse lib true node push name st
      = (some ⟨name, routeVirtualHosts lib node push name (parse name).port⟩,
         ⟨st.cache.store name ⟨name, routeVirtualHosts lib node push name (parse name).port⟩,
          st.vhostBuilds ++ [(name, (parse name).port)]⟩) := by
  simp [buildHTTPRoute, hvalid, hmiss]

/-- With caching disabled every valid name is built, nothing is stored, and the
builder call is recorded. -/
theorem buildHTTPRoute_of_disabled (parse : String → SubsetKey) (lib : V1alpha3)
    (node : Proxy) (push : PushContext) (name : String) (st : RdsState)
    (hvalid : failsToParse (parse name) = false) :
    buildHTTPRoute parse lib false node push name st
      = (some ⟨name, routeVirtualHosts lib node push name (parse name).port⟩,
         ⟨st.cache, st.vhostBuilds ++ [(name, (parse name).port)]⟩) := by
  simp [buildHTTPRoute, hvalid]

/-- The test of `buildHTTPRoute` in terms of the decoded hostname and port. -/
theorem failsToParse_eq_false (key : SubsetKey) :
    failsToParse key = false ↔ key.hostname ≠ "" ∧ key.port ≠ 0 := by
  simp [failsToParse]

/-- A configuration comes back exactly for the names that parse, in every state. -/
theorem buildHTTPRoute_isSome (parse : String → SubsetKey) (lib : V1alpha3) (enable : Bool)
    (node : Proxy) (push : PushContext) (name : String) (st : RdsState) :
    (buildHTTPRoute parse lib enable node push name st).1.isSome
      = !failsToParse (parse name) := by
  cases hf : failsToParse (parse name) with
  | true => simp [buildHTTPRoute_of_fails parse lib enable node push name st hf]
  | false =>
    cases enable with
    | false => simp [buildHTTPRoute_of_disabled parse lib node push name st hf]
    | true =>
      cases hl : st.cache.lookup name with
      | none => simp [buildHTTPRoute_of_miss parse lib node push name st hf hl]
      | some rc => simp [buildHTTPRoute_of_hit parse lib node push name st rc hf hl]

/-! ## Route building -/

/-- C13: a route name that decodes to an empty hostname or to port 0 yields no
configuration, makes no call to the virtual-host builder and leaves the cache
exactly as it was, whether caching is enabled or not. -/
theorem buildHTTPRoute_unparseable (parse : String → SubsetKey) (lib : V1alpha3)
    (enable : Bool) (node : Proxy) (push : PushContext) (name : String) (st : RdsState)
    (hbad : (parse name).hostname = "" ∨ (parse name).port = 0) :
    (buildHTTPRoute parse lib enable node push name st).1 = none
    ∧ (buildHTTPRoute parse lib enable node push name st).2.vhostBuilds = st.vhostBuilds
    ∧ (buildHTTPRoute parse lib enable node push name st).2.cache = st.cache
    ∧ (buildHTTPRoute parse lib enable node push name st).2.cache.lookup name
        = st.cache.lookup name := by
  have hf : failsToParse (parse name) = true := by simpa [failsToParse] using hbad
  rw [buildHTTPRoute_of_fails parse lib enable node push name st hf]
  exact ⟨rfl, rfl, rfl, rfl⟩

/-- Witness of C13: the name `"bad"` decodes to an empty hostname; building it
on a warm cache yields nothing and the state stays as it was. -/
theorem buildHTTPRoute_unparseable_witness :
    ((sampleParse "bad").hostname = "" ∨ (sampleParse "bad").port = 0)
    ∧ (buildHTTPRoute sampleParse sampleLib true sidecar samplePush "bad" warmState).1 = none
    ∧ (buildHTTPRoute sampleParse sampleLib true sidecar samplePush "bad" warmState).2.cache
        = warmState.cache :=
  ⟨by decide,
    (buildHTTPRoute_unparseable sampleParse sampleLib true sidecar samplePush "bad" warmState
      (by decide)).1,
    (buildHTTPRoute_unparseable sampleParse sampleLib true sidecar samplePush "bad" warmState
      (by decide)).2.2.1⟩

/-- C14: with caching enabled, for every valid route name and every starting
state, the first build returns a configuration, and a second build of the same
name returns the same configuration without a call to the virtual-host builder
and without changing the state, whatever proxy, push context and collaborators
the second call is given. -/
theorem buildHTTPRoute_twice (parse : String → SubsetKey) (lib : V1alpha3)
    (node : Proxy) (push : PushContext) (name : String) (st : RdsState)
    (hvalid : (parse name).hostname ≠ "" ∧ (parse name).port ≠ 0) :
    ∃ rc : RouteConfiguration,
      (buildHTTPRoute parse lib true node push name st).1 = some rc
      ∧ ∀ (lib' : V1alpha3) (node' : Proxy) (push' : PushContext),
          buildHTTPRoute parse lib' true node' push' name
              (buildHTTPRoute parse lib true node push name st).2
            = (some rc, (buildHTTPRoute parse lib true node push name st).2) := by
  have hf : failsToParse (parse name) = false := (failsToParse_eq_false _).mpr hvalid
  cases hl : st.cache.lookup name with
  | some rc =>
    refine ⟨rc, ?_, ?_⟩
    · rw [buildHTTPRoute_of_hit parse lib node push name st rc hf hl]
    · intro lib' node' push'
      rw [buildHTTPRoute_of_hit parse lib node push name st rc hf hl]
      exact buildHTTPRoute_of_hit parse lib' node' push' name st rc hf hl
  | none =>
    refine ⟨⟨name, routeVirtualHosts lib node push name (parse name).port⟩, ?_, ?_⟩
    · rw [buildHTTPRoute_of_miss parse lib node push name st hf hl]
    · intro lib' node' push'
      rw [buildHTTPRoute_of_miss parse lib node push name st hf hl]
      apply buildHTTPRoute_of_hit parse lib' node' push' name _ _ hf
      simp [RouteCache.lookup_store]

/-- Witness of C14: after `reviewsRoute` was built from the empty state, a
second build by another proxy with collaborators that build nothing returns
the configuration of the first build and leaves the state as it was. -/
theorem buildHTTPRoute_twice_witness :
    ((sampleParse reviewsRoute).hostname ≠ "" ∧ (sampleParse reviewsRoute).port ≠ 0)
    ∧ buildHTTPRoute sampleParse emptyLib true router samplePush reviewsRoute
          (buildHTTPRoute sampleParse sampleLib true sidecar samplePush reviewsRoute
            RdsState.init).2
        = ((buildHTTPRoute sampleParse sampleLib true sidecar samplePush reviewsRoute
              RdsState.init).1,
           (buildHTTPRoute sampleParse sampleLib true sidecar samplePush reviewsRoute
              RdsState.init).2) := by
  refine ⟨by decide, ?_⟩
  obtain ⟨rc, hfirst, hsecond⟩ :=
    buildHTTPRoute_twice sampleParse sampleLib sidecar samplePush reviewsRoute RdsState.init
      (by decide)
  rw [hfirst]
  exact hsecond emptyLib router samplePush

/-- C15: for a valid route name that is not served from the cache, the returned
virtual hosts are the sniffed-port merge of the output of the builder under the
key `p4 ++ ":" ++ p2` when the name splits on `"|"` into exactly the four parts
`p1, p2, p3, p4`, and the output of the builder unchanged when it splits into
any other number of parts; the name
`"outbound|9080|v1|reviews.default.svc.cluster.local"` has four parts and the
key `"reviews.default.svc.cluster.local:9080"`. -/
theorem buildHTTPRoute_sniffed_port (parse : String → SubsetKey) (lib : V1alpha3)
    (enable : Bool) (node : Proxy) (push : PushContext) (name : String) (st : RdsState)
    (hvalid : (parse name).hostname ≠ "" ∧ (parse name).port ≠ 0)
    (hmiss : enable = false ∨ st.cache.lookup name = none) :
    (∀ p1 p2 p3 p4 : String, stringsSplit name '|' = [p1, p2, p3, p4] →
        (buildHTTPRoute parse lib enable node push name st).1
          = some ⟨name, lib.GetVirtualHostsForSniffedServicePort
              (lib.BuildSidecarOutboundVirtualHosts node push name (parse name).port)
              (p4 ++ ":" ++ p2)⟩)
    ∧ ((stringsSplit name '|').length ≠ 4 →
        (buildHTTPRoute parse lib enable node push name st).1
          = some ⟨name, lib.BuildSidecarOutboundVirtualHosts node push name (parse name).port⟩)
    ∧ stringsSplit "outbound|9080|v1|reviews.default.svc.cluster.local" '|'
        = ["outbound", "9080", "v1", "reviews.default.svc.cluster.local"]
    ∧ "reviews.default.svc.cluster.local" ++ ":" ++ "9080"
        = "reviews.default.svc.cluster.local:9080" := by
  have hf : failsToParse (parse name) = false := (failsToParse_eq_false _).mpr hvalid
  have hres : (buildHTTPRoute parse lib enable node push name st).1
      = some ⟨name, routeVirtualHosts lib node push name (parse name).port⟩ := by
    cases enable with
    | false => rw [buildHTTPRoute_of_disabled parse lib node push name st hf]
    | true =>
      have hl : st.cache.lookup name = none := by
        rcases hmiss with h | h
        · exact absurd h (by decide)
        · exact h
      rw [buildHTTPRoute_of_miss parse lib node push name st hf hl]
  refine ⟨?_, ?_, by decide, by decide⟩
  · intro p1 p2 p3 p4 hsplit
    rw [hres]
    simp [routeVirtualHosts, hsplit]
  · intro hlen
    rw [hres]
    unfold routeVirtualHosts
    split
    · rename_i heq
      rw [heq] at hlen
      exact absurd rfl hlen
    · rfl

/-- Witness of C15: built from the empty state, `reviewsRoute` gets the hosts
of the builder merged under the key `"reviews.default.svc.cluster.local:9080"`. -/
theorem buildHTTPRoute_sniffed_port_witness :
    (((sampleParse reviewsRoute).hostname ≠ "" ∧ (sampleParse reviewsRoute).port ≠ 0)
      ∧ RdsState.init.cache.lookup reviewsRoute = none
      ∧ stringsSplit reviewsRoute '|'
          = ["outbound", "9080", "v1", "reviews.default.svc.cluster.local"])
    ∧ (buildHTTPRoute sampleParse sampleLib true sidecar samplePush reviewsRoute
          RdsState.init).1
        = some ⟨reviewsRoute, sampleLib.GetVirtualHostsForSniffedServicePort
            (sampleLib.BuildSidecarOutboundVirtualHosts sidecar samplePush reviewsRoute
              (sampleParse reviewsRoute).port)
            ("reviews.default.svc.cluster.local" ++ ":" ++ "9080")⟩ :=
  ⟨⟨by decide, rfl, by decide⟩,
    (buildHTTPRoute_sniffed_port sampleParse sampleLib true sidecar samplePush reviewsRoute
      RdsState.init (by decide) (Or.inr rfl)).1
      "outbound" "9080" "v1" "reviews.default.svc.cluster.local" (by decide)⟩

/-! ## Batches of routes -/

/-- One iteration of `BuildHTTPRoutes` on a name that fails to parse changes
neither the response nor the state. -/
theorem buildHTTPRoutesStep_of_fails (parse : String → SubsetKey) (lib : V1alpha3)
    (any : RouteConfiguration → String × List Nat) (enable : Bool) (node : Proxy)
    (push : PushContext) (acc : Resources × RdsState) (name : String)
    (h : failsToParse (parse name) = true) :
    buildHTTPRoutesStep parse lib any enable node push acc name = acc := by
  unfold buildHTTPRoutesStep
  rw [buildHTTPRoute_of_fails parse lib enable node push name acc.2 h]

/-- One iteration of `BuildHTTPRoutes` appends the name to the names of the
response when the name parses, and nothing otherwise. -/
theorem buildHTTPRoutesStep_names (parse : String → SubsetKey) (lib : V1alpha3)
    (any : RouteConfiguration → String × List Nat) (enable : Bool) (node : Proxy)
    (push : PushContext) (acc : Resources × RdsState) (name : String) :
    (buildHTTPRoutesStep parse lib any enable node push acc name).1.map (fun r => r.Name)
      = acc.1.map (fun r => r.Name)
          ++ (if failsToParse (parse name) = true then [] else [name]) := by
  have hsome := buildHTTPRoute_isSome parse lib enable node push name acc.2
  unfold buildHTTPRoutesStep
  cases hres : buildHTTPRoute parse lib enable node push name acc.2 with
  | mk r st' =>
    rw [hres] at hsome
    cases r with
    | none =>
      have hf : failsToParse (parse name) = true := by simpa using hsome
      simp [hf]
    | some rc =>
      have hf : failsToParse (parse name) = false := by simpa using hsome
      simp [hf]

/-- The names of the response of the loop of `BuildHTTPRoutes`, from any
accumulator. -/
theorem buildHTTPRoutes_fold_names (parse : String → SubsetKey) (lib : V1alpha3)
    (any : RouteConfiguration → String × List Nat) (enable : Bool) (node : Proxy)
    (push : PushContext) (names : List String) (acc : Resources × RdsState) :
    (names.foldl (buildHTTPRoutesStep parse lib any enable node push) acc).1.map
        (fun r => r.Name)
      = acc.1.map (fun r => r.Name)
          ++ names.filter (fun n => !failsToParse (parse n)) := by
  induction names generalizing acc with
  | nil => simp
  | cons n ns ih =>
    rw [List.foldl_cons, ih, buildHTTPRoutesStep_names]
    cases hf : failsToParse (parse n) <;> simp [hf]

/-- C16: the resources `BuildHTTPRoutes` returns carry, in input order, the
route names of the input for which `buildHTTPRoute` yields a configuration, one
resource per occurrence; a configuration is yielded exactly for the names that
parse, in every state; the number of resources is the number of such names; and
removing a name that fails to parse from the input changes nothing of the
result. -/
theorem BuildHTTPRoutes_skips_unparseable (parse : String → SubsetKey) (lib : V1alpha3)
    (any : RouteConfiguration → String × List Nat) (enable : Bool) (node : Proxy)
    (push : PushContext) (names : List String) (st : RdsState) :
    (BuildHTTPRoutes parse lib any enable node push names st).1.map (fun r => r.Name)
        = names.filter (fun n => !failsToParse (parse n))
    ∧ (∀ (n : String) (st' : RdsState),
        (buildHTTPRoute parse lib enable node push n st').1.isSome
          = !failsToParse (parse n))
    ∧ (BuildHTTPRoutes parse lib any enable node push names st).1.length
        = names.countP (fun n => !failsToParse (parse n))
    ∧ (∀ (before after : List String) (bad : String),
        ((parse bad).hostname = "" ∨ (parse bad).port = 0) →
        BuildHTTPRoutes parse lib any enable node push (before ++ bad :: after) st
          = BuildHTTPRoutes parse lib any enable node push (before ++ after) st) := by
  have hnames : (BuildHTTPRoutes parse lib any enable node push names st).1.map
      (fun r => r.Name) = names.filter (fun n => !failsToParse (parse n)) := by
    unfold BuildHTTPRoutes
    rw [buildHTTPRoutes_fold_names]
    simp
  refine ⟨hnames, ?_, ?_, ?_⟩
  · intro n st'
    exact buildHTTPRoute_isSome parse lib enable node push n st'
  · have hlen := congrArg List.length hnames
    rw [List.length_map] at hlen
    rw [hlen, List.countP_eq_length_filter]
  · intro before after bad hbad
    have hf : failsToParse (parse bad) = true := by simpa [failsToParse] using hbad
    unfold BuildHTTPRoutes
    rw [List.foldl_append, List.foldl_cons, buildHTTPRoutesStep_of_fails _ _ _ _ _ _ _ _ hf,
      List.foldl_append]

/-- Witness of C16: in the batch reviews, bad, reviews, httpbin the name `"bad"`
is skipped and the three other names come back in order; without `"bad"` the
result is the same. -/
theorem BuildHTTPRoutes_skips_unparseable_witness :
    ((sampleParse "bad").hostname = "" ∨ (sampleParse "bad").port = 0)
    ∧ (BuildHTTPRoutes sampleParse sampleLib sampleAny true sidecar samplePush
          [reviewsRoute, "bad", reviewsRoute, "outbound|80|httpbin.org"] RdsState.init).1.map
          (fun r => r.Name)
        = [reviewsRoute, reviewsRoute, "outbound|80|httpbin.org"]
    ∧ BuildHTTPRoutes sampleParse sampleLib sampleAny true sidecar samplePush
          ([reviewsRoute] ++ "bad" :: [reviewsRoute, "outbound|80|httpbin.org"]) RdsState.init
        = BuildHTTPRoutes sampleParse sampleLib sampleAny true sidecar samplePush
          ([reviewsRoute] ++ [reviewsRoute, "outbound|80|httpbin.org"]) RdsState.init :=
  ⟨by decide,
    (BuildHTTPRoutes_skips_unparseable sampleParse sampleLib sampleAny true sidecar samplePush
      [reviewsRoute, "bad", reviewsRoute, "outbound|80|httpbin.org"] RdsState.init).1.trans
      (by decide),
    (BuildHTTPRoutes_skips_unparseable sampleParse sampleLib sampleAny true sidecar samplePush
      [reviewsRoute, "bad", reviewsRoute, "outbound|80|httpbin.org"] RdsState.init).2.2.2
      [reviewsRoute] [reviewsRoute, "outbound|80|httpbin.org"] "bad" (by decide)⟩

/-! ## The cache over time -/

/-- What a call of `buildHTTPRoute` does to the cache: nothing, or, on a miss
of a valid name with caching enabled, a store of the returned configuration. -/
theorem buildHTTPRoute_cache (parse : String → SubsetKey) (lib : V1alpha3) (enable : Bool)
    (node : Proxy) (push : PushContext) (name : String) (st : RdsState) :
    (buildHTTPRoute parse lib enable node push name st).2.cache = st.cache
    ∨ (st.cache.lookup name = none ∧ failsToParse (parse name) = false ∧ enable = true
        ∧ (buildHTTPRoute parse lib enable node push name st).1
            = some ⟨name, routeVirtualHosts lib node push name (parse name).port⟩
        ∧ (buildHTTPRoute parse lib enable node push name st).2.cache
            = st.cache.store name
                ⟨name, routeVirtualHosts lib node push name (parse name).port⟩) := by
  cases hf : failsToParse (parse name) with
  | true => left; rw [buildHTTPRoute_of_fails parse lib enable node push name st hf]
  | false =>
    cases enable with
    | false => left; rw [buildHTTPRoute_of_disabled parse lib node push name st hf]
    | true =>
      cases hl : st.cache.lookup name with
      | some rc => left; rw [buildHTTPRoute_of_hit parse lib node push name st rc hf hl]
      | none =>
        right
        rw [buildHTTPRoute_of_miss parse lib node push name st hf hl]
        exact ⟨rfl, rfl, rfl, rfl, rfl⟩

/-- C18: a call of `buildHTTPRoute` for a name N keeps every entry of the cache
with its value (an entry of N included), neither adds nor changes an entry of
another name, and changes the cache at most by adding an entry for N, which
happens only when N had none, N is valid and caching is enabled. -/
theorem buildHTTPRoute_cache_only_grows (parse : String → SubsetKey) (lib : V1alpha3)
    (enable : Bool) (node : Proxy) (push : PushContext) (name : String) (st : RdsState) :
    (∀ (k : String) (v : RouteConfiguration), st.cache.lookup k = some v →
        (buildHTTPRoute parse lib enable node push name st).2.cache.lookup k = some v)
    ∧ (∀ k : String, k ≠ name →
        (buildHTTPRoute parse lib enable node push name st).2.cache.lookup k
          = st.cache.lookup k)
    ∧ ((buildHTTPRoute parse lib enable node push name st).2.cache = st.cache
        ∨ (st.cache.lookup name = none
            ∧ ((parse name).hostname ≠ "" ∧ (parse name).port ≠ 0)
            ∧ enable = true
            ∧ ∃ rc : RouteConfiguration,
                (buildHTTPRoute parse lib enable node push name st).2.cache
                  = st.cache.store name rc)) := by
  rcases buildHTTPRoute_cache parse lib enable node push name st with h | h
  · rw [h]
    exact ⟨fun _ _ hv => hv, fun _ _ => rfl, Or.inl rfl⟩
  · obtain ⟨hl, hf, he, _, hc⟩ := h
    rw [hc]
    refine ⟨?_, ?_, Or.inr ⟨hl, (failsToParse_eq_false _).mp hf, he, _, rfl⟩⟩
    · intro k v hv
      rw [RouteCache.lookup_store]
      by_cases hk : k = name
      · rw [hk, hl] at hv
        exact absurd hv (by simp)
      · rw [if_neg hk, hv]
    · intro k hk
      rw [RouteCache.lookup_store, if_neg hk]

/-- Witness of C18: building the three-part name on a warm cache keeps the
entry of `reviewsRoute`, and building `reviewsRoute` again keeps the cache. -/
theorem buildHTTPRoute_cache_only_grows_witness :
    (warmState.cache.lookup reviewsRoute = some ⟨reviewsRoute, [⟨"cached", []⟩]⟩
      ∧ reviewsRoute ≠ "outbound|80|httpbin.org")
    ∧ (buildHTTPRoute sampleParse sampleLib true sidecar samplePush "outbound|80|httpbin.org"
          warmState).2.cache.lookup reviewsRoute = some ⟨reviewsRoute, [⟨"cached", []⟩]⟩
    ∧ (buildHTTPRoute sampleParse sampleLib true sidecar samplePush "outbound|80|httpbin.org"
          warmState).2.cache.lookup reviewsRoute = warmState.cache.lookup reviewsRoute :=
  ⟨⟨by decide, by decide⟩,
    (buildHTTPRoute_cache_only_grows sampleParse sampleLib true sidecar samplePush
      "outbound|80|httpbin.org" warmState).1 reviewsRoute _ (by decide),
    (buildHTTPRoute_cache_only_grows sampleParse sampleLib true sidecar samplePush
      "outbound|80|httpbin.org" warmState).2.1 reviewsRoute (by decide)⟩

/-- A call of `buildHTTPRoute` keeps the property that every entry is stored
under its own name and that this name parses. -/
theorem buildHTTPRoute_keeps_entries_named (parse : String → SubsetKey) (lib : V1alpha3)
    (enable : Bool) (node : Proxy) (push : PushContext) (name : String) (st : RdsState)
    (hinv : ∀ e ∈ st.cache.entries, e.2.Name = e.1 ∧ failsToParse (parse e.1) = false) :
    ∀ e ∈ (buildHTTPRoute parse lib enable node push name st).2.cache.entries,
      e.2.Name = e.1 ∧ failsToParse (parse e.1) = false := by
  rcases buildHTTPRoute_cache parse lib enable node push name st with h | h
  · rw [h]; exact hinv
  · obtain ⟨_, hf, _, _, hc⟩ := h
    rw [hc]
    intro e he
    unfold RouteCache.store at he
    rcases List.mem_cons.mp he with rfl | he
    · exact ⟨rfl, hf⟩
    · exact hinv e (List.mem_of_mem_filter he)

/-- Every sequence of calls keeps the property that every entry is stored under
its own name and that this name parses. -/
theorem runCalls_keeps_entries_named (parse : String → SubsetKey) (calls : List RouteCall)
    (st : RdsState)
    (hinv : ∀ e ∈ st.cache.entries, e.2.Name = e.1 ∧ failsToParse (parse e.1) = false) :
    ∀ e ∈ (runCalls parse calls st).cache.entries,
      e.2.Name = e.1 ∧ failsToParse (parse e.1) = false := by
  induction calls generalizing st with
  | nil => exact hinv
  | cons call rest ih =>
    unfold runCalls
    rw [List.foldl_cons]
    exact ih _ (buildHTTPRoute_keeps_entries_named parse call.lib call.enableRdsCache
      call.node call.push call.routeName st hinv)

/-- C19: in every state reached from the empty cache by a sequence of
`buildHTTPRoute` calls, each entry stored under N is a configuration named N
and N decodes to a non-empty hostname and a non-zero port; every configuration
a further call returns for a route name carries that name, on a hit as on a
miss, and with caching enabled it is the value the cache holds for that name
after the call. -/
theorem reachable_cache_entries_named (parse : String → SubsetKey) (calls : List RouteCall) :
    (∀ (N : String) (rc : RouteConfiguration),
        (N, rc) ∈ (runCalls parse calls RdsState.init).cache.entries →
        rc.Name = N ∧ (parse N).hostname ≠ "" ∧ (parse N).port ≠ 0)
    ∧ (∀ (N : String) (rc : RouteConfiguration),
        (runCalls parse calls RdsState.init).cache.lookup N = some rc →
        rc.Name = N ∧ (parse N).hostname ≠ "" ∧ (parse N).port ≠ 0)
    ∧ (∀ (lib : V1alpha3) (enable : Bool) (node : Proxy) (push : PushContext)
        (name : String) (rc : RouteConfiguration),
        (buildHTTPRoute parse lib enable node push name
            (runCalls parse calls RdsState.init)).1 = some rc →
        rc.Name = name
        ∧ (enable = true →
            (buildHTTPRoute parse lib enable node push name
              (runCalls parse calls RdsState.init)).2.cache.lookup name = some rc)) := by
  have hinv := runCalls_keeps_entries_named parse calls RdsState.init
    (by intro e he; exact absurd he (List.not_mem_nil e))
  have hentries : ∀ (N : String) (rc : RouteConfiguration),
      (N, rc) ∈ (runCalls parse calls RdsState.init).cache.entries →
      rc.Name = N ∧ (parse N).hostname ≠ "" ∧ (parse N).port ≠ 0 := by
    intro N rc hmem
    obtain ⟨hname, hf⟩ := hinv (N, rc) hmem
    exact ⟨hname, (failsToParse_eq_false _).mp hf⟩
  refine ⟨hentries, ?_, ?_⟩
  · intro N rc hl
    exact hentries N rc (RouteCache.mem_of_lookup _ N rc hl)
  · intro lib enable node push name rc hres
    generalize runCalls parse calls RdsState.init = st at hres hentries ⊢
    cases hf : failsToParse (parse name) with
    | true =>
      rw [buildHTTPRoute_of_fails parse lib enable node push name st hf] at hres
      exact absurd hres (by simp)
    | false =>
      cases enable with
      | false =>
        rw [buildHTTPRoute_of_disabled parse lib node push name st hf] at hres
        have hrc : rc = ⟨name, routeVirtualHosts lib node push name (parse name).port⟩ :=
          (Option.some.inj hres).symm
        exact ⟨by rw [hrc], fun h => absurd h (by decide)⟩
      | true =>
        cases hl : st.cache.lookup name with
        | some cached =>
          rw [buildHTTPRoute_of_hit parse lib node push name st cached hf hl] at hres ⊢
          have hrc : rc = cached := (Option.some.inj hres).symm
          subst hrc
          exact ⟨(hentries name rc (RouteCache.mem_of_lookup _ name rc hl)).1, fun _ => hl⟩
        | none =>
          rw [buildHTTPRoute_of_miss parse lib node push name st hf hl] at hres ⊢
          have hrc : rc = ⟨name, routeVirtualHosts lib node push name (parse name).port⟩ :=
            (Option.some.inj hres).symm
          refine ⟨by rw [hrc], fun _ => ?_⟩
          rw [hrc]
          simp [RouteCache.lookup_store]

/-- Witness of C19: after the calls reviews, bad, httpbin from the empty cache
the entry found under `reviewsRoute` is named `reviewsRoute`, and a further
build of `reviewsRoute` returns a configuration of that name. -/
theorem reachable_cache_entries_named_witness :
    ((runCalls sampleParse
          [⟨true, sampleLib, sidecar, samplePush, reviewsRoute⟩,
           ⟨true, sampleLib, sidecar, samplePush, "bad"⟩,
           ⟨true, sampleLib, router, samplePush, "outbound|80|httpbin.org"⟩]
          RdsState.init).cache.lookup reviewsRoute
        = some ⟨reviewsRoute, [⟨reviewsRoute, ["9080"]⟩,
            ⟨"reviews.default.svc.cluster.local:9080", []⟩]⟩)
    ∧ (⟨reviewsRoute, [⟨reviewsRoute, ["9080"]⟩,
          ⟨"reviews.default.svc.cluster.local:9080", []⟩]⟩ : RouteConfiguration).Name
        = reviewsRoute :=
  ⟨by decide,
    ((reachable_cache_entries_named sampleParse
        [⟨true, sampleLib, sidecar, samplePush, reviewsRoute⟩,
         ⟨true, sampleLib, sidecar, samplePush, "bad"⟩,
         ⟨true, sampleLib, router, samplePush, "outbound|80|httpbin.org"⟩]).2.1
      reviewsRoute _ (by decide)).1⟩

end Istio
